import Mathlib

/-!
Verification of the factorial program in `src/main.c`.

The program is

  int factorial(int x) {
    if (x <= 1) return 1;
    return x * factorial(x - 1);
  }

  int main() {
    int r = factorial(5);
    printf("%d\n", r);
    return 0;
  }

We embed the C function in two ways:

* `factorial : Int → Int` — the idealised semantics, where `int`
  arithmetic is exact (valid for every execution in which no product
  overflows, since C signed arithmetic agrees with `Int` there);
* `factorial32 : Int → Int` — the 32-bit two's-complement model, where
  the product `x * factorial(x - 1)` is reduced modulo 2^32 into the
  interval [-2^31, 2^31) by `wrap32`/`mul32`.

`callDepth` counts the recursive calls the source makes, and
`factorialS` is the same recursion with an explicit state parameter
threaded through every call, used to state purity.  `mainOutput` and
`mainExitCode` model the entry point.
-/

/-- The idealised embedding of `factorial` from src/main.c lines 4-8:
`if (x <= 1) return 1; return x * factorial(x - 1);` with exact integer
arithmetic. -/
def factorial (x : Int) : Int :=
  if x ≤ 1 then 1
  else x * factorial (x - 1)
termination_by x.toNat
decreasing_by omega

/-- Reduction of an integer into the 32-bit two's-complement range
[-2^31, 2^31), i.e. the value a wrapped `int` holds. -/
def wrap32 (z : Int) : Int :=
  (z + 2147483648) % 4294967296 - 2147483648

/-- 32-bit two's-complement multiplication of `int` values. -/
def mul32 (a b : Int) : Int :=
  wrap32 (a * b)

/-- The 32-bit machine model of `factorial` from src/main.c lines 4-8:
the recursion is identical, but the product is the machine product. -/
def factorial32 (x : Int) : Int :=
  if x ≤ 1 then 1
  else mul32 x (factorial32 (x - 1))
termination_by x.toNat
decreasing_by omega

/-- Number of recursive calls `factorial(x)` performs in src/main.c:
zero in the base case, one plus the count of the callee otherwise. -/
def callDepth (x : Int) : Nat :=
  if x ≤ 1 then 0
  else 1 + callDepth (x - 1)
termination_by x.toNat
decreasing_by omega

/-- The machine recursion of src/main.c lines 4-8 with an explicit
state of an arbitrary type threaded through each call, exactly along
the source's control flow; the source touches no state, so the thread
is passed through unchanged. -/
def factorialS {σ : Type} (x : Int) (s : σ) : Int × σ :=
  if x ≤ 1 then (1, s)
  else
    let p := factorialS (x - 1) s
    (mul32 x p.1, p.2)
termination_by x.toNat
decreasing_by omega

/-- The text `main` (src/main.c lines 10-15) writes to standard output:
the decimal rendering of `factorial(5)` followed by a newline. -/
def mainOutput : String :=
  toString (factorial32 5) ++ "\n"

/-- The exit status of `main` (src/main.c line 14): `return 0;`. -/
def mainExitCode : Int := 0

theorem wrap32_eq_self (z : Int) (h1 : -2147483648 ≤ z) (h2 : z < 2147483648) :
    wrap32 z = z := by
  unfold wrap32
  omega

theorem factorial_base (x : Int) (h : x ≤ 1) : factorial x = 1 := by
  rw [factorial, if_pos h]

theorem factorial32_base (x : Int) (h : x ≤ 1) : factorial32 x = 1 := by
  rw [factorial32, if_pos h]

theorem factorial_natCast (n : Nat) :
    factorial (n : Int) = (Nat.factorial n : Int) := by
  induction n with
  | zero => rw [factorial]; norm_num [Nat.factorial]
  | succ m ih =>
    by_cases hm : m = 0
    · subst hm; rw [factorial]; norm_num [Nat.factorial]
    · have h1 : ¬ ((m + 1 : Nat) : Int) ≤ 1 := by omega
      have hc : ((m + 1 : Nat) : Int) - 1 = (m : Int) := by push_cast; ring
      rw [factorial, if_neg h1, hc, ih, Nat.factorial_succ]
      push_cast
      ring

theorem factorial32_natCast (n : Nat) (h : Nat.factorial n ≤ 2147483647) :
    factorial32 (n : Int) = (Nat.factorial n : Int) := by
  induction n with
  | zero => rw [factorial32]; norm_num [Nat.factorial]
  | succ m ih =>
    by_cases hm : m = 0
    · subst hm; rw [factorial32]; norm_num [Nat.factorial]
    · have h1 : ¬ ((m + 1 : Nat) : Int) ≤ 1 := by omega
      have hc : ((m + 1 : Nat) : Int) - 1 = (m : Int) := by push_cast; ring
      have hle : Nat.factorial m ≤ 2147483647 :=
        le_trans (Nat.factorial_le (Nat.le_succ m)) h
      rw [factorial32, if_neg h1, hc, ih hle]
      unfold mul32
      have hprod : ((m + 1 : Nat) : Int) * (Nat.factorial m : Int)
          = (Nat.factorial (m + 1) : Int) := by
        rw [Nat.factorial_succ]; push_cast; ring
      rw [hprod]
      have hlo : (-2147483648 : Int) ≤ (Nat.factorial (m + 1) : Int) := by
        have : (0 : Int) ≤ (Nat.factorial (m + 1) : Int) := Int.natCast_nonneg _
        omega
      have hhi : (Nat.factorial (m + 1) : Int) < 2147483648 := by
        exact_mod_cast Nat.lt_succ_of_le h
      exact wrap32_eq_self _ hlo hhi

theorem factorial32_toNat (x : Int) (hx : 0 ≤ x)
    (h : Nat.factorial x.toNat ≤ 2147483647) :
    factorial32 x = (Nat.factorial x.toNat : Int) := by
  have := factorial32_natCast x.toNat h
  rwa [Int.toNat_of_nonneg hx] at this

theorem factorial_toNat (x : Int) (hx : 0 ≤ x) :
    factorial x = (Nat.factorial x.toNat : Int) := by
  have := factorial_natCast x.toNat
  rwa [Int.toNat_of_nonneg hx] at this

theorem callDepth_natCast (n : Nat) : callDepth (n : Int) = n - 1 := by
  induction n with
  | zero => rw [callDepth]; norm_num
  | succ m ih =>
    by_cases hm : m = 0
    · subst hm; rw [callDepth]; norm_num
    · have h1 : ¬ ((m + 1 : Nat) : Int) ≤ 1 := by omega
      have hc : ((m + 1 : Nat) : Int) - 1 = (m : Int) := by push_cast; ring
      rw [callDepth, if_neg h1, hc, ih]
      omega

theorem factorialS_eq {σ : Type} (x : Int) (s : σ) :
    factorialS x s = (factorial32 x, s) := by
  have key : ∀ (n : Nat) (y : Int), y.toNat = n → ∀ t : σ,
      factorialS y t = (factorial32 y, t) := by
    intro n
    induction n using Nat.strong_induction_on with
    | _ n ih =>
      intro y hy t
      by_cases h : y ≤ 1
      · rw [factorialS, factorial32, if_pos h, if_pos h]
      · have hlt : (y - 1).toNat < n := by omega
        rw [factorialS, factorial32, if_neg h, if_neg h,
          ih _ hlt (y - 1) rfl t]
  exact key x.toNat x rfl s

theorem factorial32_twelve : factorial32 12 = 479001600 := by
  have h : factorial32 ((12 : Nat) : Int) = (Nat.factorial 12 : Int) :=
    factorial32_natCast 12 (by decide)
  norm_num [Nat.factorial] at h
  exact h

theorem factorial32_thirteen : factorial32 13 = 1932053504 := by
  rw [factorial32]
  norm_num [factorial32_twelve, mul32, wrap32]

theorem factorial32_fourteen : factorial32 14 = 1278945280 := by
  rw [factorial32]
  norm_num [factorial32_thirteen, mul32, wrap32]

theorem factorial32_five : factorial32 5 = 120 := by
  have h : factorial32 ((5 : Nat) : Int) = (Nat.factorial 5 : Int) :=
    factorial32_natCast 5 (by decide)
  norm_num [Nat.factorial] at h
  exact h

/-- C1: for every integer x ≥ 0 such that no intermediate or final product
in the computation of x! exceeds the `int` range (every k! for k ≤ x stays
within INT_MAX = 2147483647), `factorial(x)` equals the mathematical
factorial of x — both in the 32-bit machine model and in the idealised
model. -/
theorem C1_exact_within_range (x : Int) (hx : 0 ≤ x)
    (hov : ∀ k : Nat, k ≤ x.toNat → Nat.factorial k ≤ 2147483647) :
    factorial32 x = (Nat.factorial x.toNat : Int) ∧
    factorial x = (Nat.factorial x.toNat : Int) :=
  ⟨factorial32_toNat x hx (hov x.toNat le_rfl), factorial_toNat x hx⟩

/-- C1 witness: the hypotheses hold at x = 5 and the conclusion follows. -/
theorem C1_witness :
    factorial32 5 = (Nat.factorial (5 : Int).toNat : Int) ∧
    factorial 5 = (Nat.factorial (5 : Int).toNat : Int) :=
  C1_exact_within_range 5 (by norm_num) (by decide)

/-- C2: factorial(0) = factorial(1) = 1 (any x ≤ 1 returns 1), and for x in
{2, 3, 4, 5, 6} factorial(x) is the product 1·2·…·x; in particular
factorial(5) = 120. -/
theorem C2_small_inputs :
    factorial32 0 = 1 ∧ factorial32 1 = 1 ∧ factorial32 2 = 2 ∧
    factorial32 3 = 6 ∧ factorial32 4 = 24 ∧ factorial32 5 = 120 ∧
    factorial32 6 = 720 ∧ ∀ x : Int, x ≤ 1 → factorial32 x = 1 := by
  have e : ∀ n v : Nat, Nat.factorial n = v → v ≤ 2147483647 →
      factorial32 (n : Int) = (v : Int) := by
    intro n v hv h
    rw [← hv]
    exact factorial32_natCast n (hv ▸ h)
  refine ⟨?_, ?_, ?_, ?_, ?_, ?_, ?_, fun x hx => factorial32_base x hx⟩
  · simpa using e 0 1 (by decide) (by decide)
  · simpa using e 1 1 (by decide) (by decide)
  · simpa using e 2 2 (by decide) (by decide)
  · simpa using e 3 6 (by decide) (by decide)
  · simpa using e 4 24 (by decide) (by decide)
  · simpa using e 5 120 (by decide) (by decide)
  · simpa using e 6 720 (by decide) (by decide)

/-- C2 witness: the quantified base-case clause instantiated at x = -4. -/
theorem C2_witness : factorial32 (-4) = 1 :=
  C2_small_inputs.2.2.2.2.2.2.2 (-4) (by norm_num)

/-- C3: recurrence law — for every x > 1, factorial(x) = x * factorial(x-1),
in the idealised model with exact multiplication and in the machine model
with the machine (wrapping) multiplication the source actually performs. -/
theorem C3_recurrence (x : Int) (h : 1 < x) :
    factorial x = x * factorial (x - 1) ∧
    factorial32 x = mul32 x (factorial32 (x - 1)) := by
  constructor
  · rw [factorial, if_neg (show ¬ x ≤ 1 by omega)]
  · rw [factorial32, if_neg (show ¬ x ≤ 1 by omega)]

/-- C3 witness: the recurrence at x = 3. -/
theorem C3_witness :
    factorial 3 = 3 * factorial 2 ∧
    factorial32 3 = mul32 3 (factorial32 2) :=
  C3_recurrence 3 (by norm_num)

/-- C4: the program prints exactly the decimal string 120 followed by a
newline and exits with status 0. -/
theorem C4_main_output : mainOutput = "120\n" ∧ mainExitCode = 0 := by
  constructor
  · unfold mainOutput
    rw [factorial32_five]
    rfl
  · rfl

/-- C5: every negative input immediately satisfies the base case and
returns 1 — wrong mathematically but defined — with zero recursive calls
(so no unbounded recursion and no fault), in both models. -/
theorem C5_negative_input (x : Int) (h : x < 0) :
    factorial32 x = 1 ∧ factorial x = 1 ∧ callDepth x = 0 := by
  refine ⟨factorial32_base x (by omega), factorial_base x (by omega), ?_⟩
  rw [callDepth, if_pos (show x ≤ 1 by omega)]

/-- C5 witness: the negative input -7. -/
theorem C5_witness :
    factorial32 (-7) = 1 ∧ factorial (-7) = 1 ∧ callDepth (-7) = 0 :=
  C5_negative_input (-7) (by norm_num)

/-- C6 counterexample: the claim quantifies over all x2 > x1 ≥ 0, but in
the 32-bit machine model of the source the pair (13, 14) violates it:
factorial32 14 = 1278945280 < 1932053504 = factorial32 13. -/
theorem C6_counterexample :
    (0 : Int) ≤ 13 ∧ (13 : Int) < 14 ∧ factorial32 14 < factorial32 13 := by
  refine ⟨by norm_num, by norm_num, ?_⟩
  rw [factorial32_thirteen, factorial32_fourteen]
  norm_num

/-- C6 amended: monotonicity holds on the non-overflow domain of 32-bit
int — for 0 ≤ x1 < x2 ≤ 12, factorial(x2) ≥ factorial(x1) in the machine
model; beyond x = 12 wrapping breaks it (see the counterexample). -/
theorem C6_monotone_in_range (x1 x2 : Int) (h0 : 0 ≤ x1) (h : x1 < x2)
    (h12 : x2 ≤ 12) : factorial32 x1 ≤ factorial32 x2 := by
  have b1 : Nat.factorial x1.toNat ≤ 2147483647 :=
    le_trans (Nat.factorial_le (show x1.toNat ≤ 12 by omega)) (by decide)
  have b2 : Nat.factorial x2.toNat ≤ 2147483647 :=
    le_trans (Nat.factorial_le (show x2.toNat ≤ 12 by omega)) (by decide)
  rw [factorial32_toNat x1 h0 b1, factorial32_toNat x2 (by omega) b2]
  exact_mod_cast Nat.factorial_le (show x1.toNat ≤ x2.toNat by omega)

/-- C6 witness: bounded monotonicity at the pair (2, 5). -/
theorem C6_witness : factorial32 2 ≤ factorial32 5 :=
  C6_monotone_in_range 2 5 (by norm_num) (by norm_num) (by norm_num)

/-- C7 counterexample: at x = 13, the first input whose factorial exceeds
INT_MAX, the code does not fail with an Overflow condition — it silently
returns the wrapped value 1932053504, different from 13! = 6227020800. -/
theorem C7_counterexample :
    factorial32 13 = 1932053504 ∧ (Nat.factorial 13 : Int) = 6227020800 ∧
    factorial32 13 ≠ (Nat.factorial 13 : Int) := by
  refine ⟨factorial32_thirteen, by norm_num [Nat.factorial], ?_⟩
  rw [factorial32_thirteen]
  norm_num [Nat.factorial]

/-- C7 amended: with 32-bit `int`, the largest in-range input x = 12
produces the exact value 12! = 479001600, and the next input x = 13
silently wraps — the result is the two's-complement reduction of
13 * 12!, not the true 13! and not a clean failure. -/
theorem C7_overflow_boundary :
    factorial32 12 = (Nat.factorial 12 : Int) ∧
    factorial32 13 = wrap32 ((13 : Int) * (Nat.factorial 12 : Int)) ∧
    factorial32 13 ≠ (Nat.factorial 13 : Int) := by
  refine ⟨?_, ?_, ?_⟩
  · rw [factorial32_twelve]; norm_num [Nat.factorial]
  · rw [factorial32_thirteen]; norm_num [Nat.factorial, wrap32]
  · rw [factorial32_thirteen]; norm_num [Nat.factorial]

/-- C8: termination — the recursion is total (the embedding is defined by
well-founded recursion for every integer input) and the number of
recursive calls of factorial(x) is exactly max(x - 1, 0), i.e.
(x - 1).toNat: proportional to x for positive x, zero for x ≤ 1. -/
theorem C8_termination_depth (x : Int) : callDepth x = (x - 1).toNat := by
  by_cases h : x ≤ 1
  · rw [callDepth, if_pos h]
    omega
  · have hx : x = ((x.toNat : Nat) : Int) := (Int.toNat_of_nonneg (by omega)).symm
    rw [hx, callDepth_natCast]
    omega

/-- C9: purity and determinism — threading an arbitrary state through the
source's control flow, the final state equals the initial state (no side
effects), the result is independent of the state (determinism: equal
arguments give equal results no matter the surrounding state), and the
result coincides with the stateless function. -/
theorem C9_purity {σ : Type} (x : Int) (s s1 s2 : σ) :
    (factorialS x s).2 = s ∧
    (factorialS x s1).1 = (factorialS x s2).1 ∧
    (factorialS x s).1 = factorial32 x := by
  simp [factorialS_eq]

/-- C10: modelled with 32-bit two's-complement wrapping arithmetic, the
code is exact for every x ≤ 12 — in particular factorial(12) = 479001600
= 12! — while factorial(13) = 1932053504 differs from the true
13! = 6227020800, so x = 13 is the first input where exactness is
silently lost. -/
theorem C10_first_inexact_at_13 :
    (∀ x : Int, 0 ≤ x → x ≤ 12 → factorial32 x = (Nat.factorial x.toNat : Int)) ∧
    factorial32 12 = 479001600 ∧ (Nat.factorial 12 : Int) = 479001600 ∧
    factorial32 13 = 1932053504 ∧ (Nat.factorial 13 : Int) = 6227020800 ∧
    factorial32 13 ≠ (Nat.factorial 13 : Int) := by
  refine ⟨?_, factorial32_twelve, by norm_num [Nat.factorial],
    factorial32_thirteen, by norm_num [Nat.factorial], ?_⟩
  · intro x hx h12
    refine factorial32_toNat x hx ?_
    calc Nat.factorial x.toNat ≤ Nat.factorial 12 :=
          Nat.factorial_le (by omega)
      _ ≤ 2147483647 := by decide
  · rw [factorial32_thirteen]
    norm_num [Nat.factorial]

/-- C10 witness: the universal clause applied at x = 12. -/
theorem C10_witness : factorial32 12 = (Nat.factorial (12 : Int).toNat : Int) :=
  C10_first_inexact_at_13.1 12 (by norm_num) (by norm_num)
